import Mathlib

/-!
Shallow embedding of the `interceptor` and `adaptertemplate` Go packages of
the monorepo-lib repository, together with proofs of the specification's
claims about them.

Go side effects (call logs performed by interceptors, route registration
performed by controller methods, bridge hooks) are modelled by explicit
state passing: a handler of Go type
`func(ctx *UniversalContext[M]) (any, error)` becomes a Lean function
`UniversalContext M → σ → (R × Option E) × σ` where `σ` is the state the
closures mutate, `R` stands for the dynamic result type `any`, and
`Option E` models the Go `error` interface with `none` for `nil`.
-/

/-- Model of Go's `context.Context` values: `background` is
`context.Background()`, `derived` stands for any other context value.
A nilable `context.Context` argument is modelled as `Option GoContext`. -/
inductive GoContext where
  | background
  | derived (id : Nat)
deriving DecidableEq, Repr

/-- Model of Go `error` values produced by the interceptor package:
`base` is any ordinary error (identified by its message), and
`interceptorError` mirrors the `InterceptorError` struct of the source
with its `InterceptorName` and wrapped `Err` fields (`Err` is always
non-nil there, since `NewInterceptorError` returns nil on nil input). -/
inductive GoError where
  | base (msg : String)
  | interceptorError (interceptorName : String) (err : GoError)
deriving DecidableEq, Repr

namespace GoError

/-- `(e *InterceptorError) Error() string` together with the `Error`
method of a plain error: `fmt.Sprintf("interceptor[%s]: %v", name, err)`. -/
def Error : GoError → String
  | .base msg => msg
  | .interceptorError interceptorName err =>
      "interceptor[" ++ interceptorName ++ "]: " ++ err.Error

/-- `(e *InterceptorError) Unwrap() error { return e.Err }`; a plain error
has no `Unwrap` method, modelled by `none`. -/
def Unwrap : GoError → Option GoError
  | .base _ => none
  | .interceptorError _ err => some err

end GoError

namespace interceptor

/-- `UniversalContext[M]` from context.go: an embedded `context.Context`
plus protocol tag, method identifier and adapter-specific metadata. -/
structure UniversalContext (M : Type) where
  Context : GoContext
  Protocol : String
  Method : String
  Meta : M

/-- `NewUniversalContext` from context.go: substitutes
`context.Background()` for a nil context argument and stores the three
remaining arguments unchanged. -/
def NewUniversalContext {M : Type} (ctx : Option GoContext)
    (protocol method : String) (meta : M) : UniversalContext M :=
  let ctx := match ctx with
    | none => GoContext.background
    | some c => c
  { Context := ctx, Protocol := protocol, Method := method, Meta := meta }

/-- `NewInterceptorError(name, err)`: nil in, nil out; otherwise wrap the
error in an `InterceptorError` carrying the interceptor's name. -/
def NewInterceptorError (name : String) (err : Option GoError) : Option GoError :=
  match err with
  | none => none
  | some e => some (GoError.interceptorError name e)

variable {σ M R E N : Type}

/-- `NextFunc[M]` from types.go, with effects made explicit: the state `σ`
threads the side effects of the closures, `R` models `any`, `Option E`
models `error` (with `none` for nil). -/
abbrev NextFunc (σ M R E : Type) :=
  UniversalContext M → σ → (R × Option E) × σ

/-- The `Interceptor[M]` interface (equivalently `InterceptorFunc[M]`,
whose `Intercept` is plain application): receives the context and the
next function of the chain. -/
abbrev Interceptor (σ M R E : Type) :=
  UniversalContext M → NextFunc σ M R E → σ → (R × Option E) × σ

/-- The closure built in each iteration of the `Chain` loop:
`handler = func(ctx) { return currentInterceptor.Intercept(ctx, nextFunc) }`. -/
def wrap (currentInterceptor : Interceptor σ M R E)
    (nextFunc : NextFunc σ M R E) : NextFunc σ M R E :=
  fun ctx s => currentInterceptor ctx nextFunc s

/-- `Chain` from interceptor.go: returns the handler unchanged when the
interceptor list is empty; otherwise the loop
`for i := len(interceptors) - 1; i >= 0; i--` rebinds
`handler = wrap(interceptors[i], handler)` from last to first, which is
exactly the right fold of `wrap` over the list. -/
def Chain (handler : NextFunc σ M R E)
    (interceptors : List (Interceptor σ M R E)) : NextFunc σ M R E :=
  if interceptors.length == 0 then
    handler
  else
    interceptors.foldr wrap handler

/-- One observable step of an instrumented pipeline run: an interceptor's
pre-next logic (`enter`), the terminal handler's body (`handlerRun`), or
an interceptor's post-next logic (`exit`). -/
inductive Event where
  | enter (name : String)
  | handlerRun
  | exit (name : String)
deriving DecidableEq, Repr

/-- An arbitrary interceptor that invokes its next-function exactly once:
its pre-next logic records `enter name`, its post-next logic records
`exit name` and applies the transformation `f` to the pair returned by
the next-function before returning it. -/
def transformInterceptor (name : String)
    (f : R × Option E → R × Option E) : Interceptor (List Event) M R E :=
  fun ctx next s =>
    let s1 := s ++ [Event.enter name]
    let out := next ctx s1
    (f out.1, out.2 ++ [Event.exit name])

/-- A terminal handler that records its execution and returns the fixed
pair `p`. -/
def logHandler (p : R × Option E) : NextFunc (List Event) M R E :=
  fun _ctx s => (p, s ++ [Event.handlerRun])

/-- An interceptor that short-circuits: it records its entry and returns
the pair `p` without ever invoking its next-function. -/
def shortCircuitInterceptor (name : String)
    (p : R × Option E) : Interceptor (List Event) M R E :=
  fun _ctx _next s => (p, s ++ [Event.enter name])

/-- An interceptor that invokes next exactly once and returns the
(result, error) pair of that call unchanged, while performing arbitrary
state effects `pre` before the call and `post` after it. -/
def passThroughInterceptor (pre post : σ → σ) : Interceptor σ M R E :=
  fun ctx next s =>
    let out := next ctx (pre s)
    (out.1, post out.2)

/-- An interceptor that invokes next once and applies `f` to a successful
result (nil error) before returning it, leaving errors untouched. -/
def resultMapInterceptor (f : R → R) : Interceptor σ M R E :=
  fun ctx next s =>
    let out := next ctx s
    match out.1.2 with
    | none => ((f out.1.1, none), out.2)
    | some err => ((out.1.1, some err), out.2)

/-- The `Bridge[M, NativeCtx]` interface from bridge.go, with the two
hooks acting on the effect state `σ`. -/
structure Bridge (σ M R E N : Type) where
  ExtractMeta : N → M
  CreateUniversalContext : N → UniversalContext M
  OnSuccess : N → R → σ → σ
  OnError : N → E → σ → σ

/-- The `InterceptorResolver[M]` interface: `Resolve(ctx, handlerKey)`
returns the interceptors to apply. -/
abbrev InterceptorResolver (σ M R E : Type) :=
  UniversalContext M → String → List (Interceptor σ M R E)

/-- `ExecutePipeline` from bridge.go: create the universal context,
resolve the interceptors, build and run the pipeline, fire `OnError`
with the error when it is non-nil and `OnSuccess` with the result
otherwise, and return the pipeline's pair. -/
def ExecutePipeline (bridge : Bridge σ M R E N)
    (resolver : InterceptorResolver σ M R E) (nativeCtx : N)
    (handlerKey : String) (businessHandler : NextFunc σ M R E)
    (s : σ) : (R × Option E) × σ :=
  let uCtx := bridge.CreateUniversalContext nativeCtx
  let interceptors := resolver uCtx handlerKey
  let pipeline := Chain businessHandler interceptors
  let out := pipeline uCtx s
  match out.1.2 with
  | some e => (out.1, bridge.OnError nativeCtx e out.2)
  | none => (out.1, bridge.OnSuccess nativeCtx out.1.1 out.2)

/-- A record of a bridge hook firing, used to observe that exactly one
hook runs per `ExecutePipeline` call. -/
inductive HookEvent (R E : Type) where
  | success (r : R)
  | failure (e : E)
deriving DecidableEq, Repr

/-- A bridge whose hooks record their invocation in the state and do
nothing else. -/
def logBridge (extract : N → M)
    (create : N → UniversalContext M) : Bridge (List (HookEvent R E)) M R E N :=
  { ExtractMeta := extract
    CreateUniversalContext := create
    OnSuccess := fun _n r s => s ++ [HookEvent.success r]
    OnError := fun _n e s => s ++ [HookEvent.failure e] }

end interceptor

namespace adaptertemplate

/-- Model of the Go types a method signature is made of: the exact
`context.Context` interface type, or any other type identified by name. -/
inductive GoType where
  | contextContext
  | named (s : String)
deriving DecidableEq, Repr

/-- Model of `reflect.Type` for a bound method value: its input parameter
types (receiver excluded, as with `reflect.Value.Method`) and its number
of results. -/
structure MethodType where
  inputs : List GoType
  numOut : Nat
deriving DecidableEq, Repr

/-- `isValidDynamicMethod` from dynamic_controller.go: exactly one input
parameter, no results, and the input is exactly `context.Context`. -/
def isValidDynamicMethod (methodType : MethodType) : Bool :=
  if methodType.inputs.length != 1 then
    false
  else if methodType.numOut != 0 then
    false
  else
    methodType.inputs.headD (GoType.named "") == GoType.contextContext

/-- A bound method of a controller: its name, its reflected type, and its
behavior when called — `run ctx s` yields `(some msg, s')` when the call
panics with message `msg`, and `(none, s')` when it returns normally,
`s` threading the method's side effects (route registration). -/
structure GoMethod (σ : Type) where
  name : String
  mtype : MethodType
  run : GoContext → σ → Option String × σ

/-- A non-nil controller value: its dynamic type's string form
(`valueType.String()`) and its exported methods in reflection order. -/
structure DynController (σ : Type) where
  typeName : String
  methods : List (GoMethod σ)

/-- The error message `fmt.Errorf("method %s.%s panicked: %v", ...)`
built when a method call panics. -/
def panicMessage (typeName methodName recovered : String) : String :=
  "method " ++ typeName ++ "." ++ methodName ++ " panicked: " ++ recovered

variable {σ : Type}

/-- The method loop of `RegisterRouter`: skip methods whose signature is
not `func(context.Context)`, call the others with the context, and stop
with an error at the first panic (fail-fast). -/
def registerLoop (typeName : String) (ctx : GoContext) :
    List (GoMethod σ) → σ → Option String × σ
  | [], s => (none, s)
  | m :: rest, s =>
    if isValidDynamicMethod m.mtype then
      match m.run ctx s with
      | (some recovered, s') => (some (panicMessage typeName m.name recovered), s')
      | (none, s') => registerLoop typeName ctx rest s'
    else
      registerLoop typeName ctx rest s

/-- `RegisterRouter` from dynamic_controller.go: nil controller returns
nil error; a nil context is replaced by `context.Background()`; then the
method loop runs. The returned error is modelled by its message. -/
def RegisterRouter (controller : Option (DynController σ))
    (ctx : Option GoContext) (s : σ) : Option String × σ :=
  match controller with
  | none => (none, s)
  | some c =>
    let ctx := match ctx with
      | none => GoContext.background
      | some c0 => c0
    registerLoop c.typeName ctx c.methods s

/-- A method instrumented to record its own invocation: calling it
appends its name to the trace, then panics or returns according to
`behavior`. -/
def instrMethod (name : String) (mt : MethodType)
    (behavior : GoContext → Option String) : GoMethod (List String) :=
  { name := name, mtype := mt, run := fun ctx s => (behavior ctx, s ++ [name]) }

/-- Description of one controller method for the specification-side run:
name, reflected type, and panic behavior. -/
abbrev MethodSpec := String × MethodType × (GoContext → Option String)

/-- Modelled from the spec: the names of exactly those methods the spec
says get invoked — the methods with signature `func(context.Context)`,
in order, up to and including the first one that panics; methods with
any other signature never appear. -/
def invokedMethods (ctx : GoContext) : List MethodSpec → List String
  | [] => []
  | (name, mt, behavior) :: rest =>
    if isValidDynamicMethod mt then
      match behavior ctx with
      | some _ => [name]
      | none => name :: invokedMethods ctx rest
    else
      invokedMethods ctx rest

/-- Modelled from the spec: the error the spec says `RegisterRouter`
returns — `none` when no invoked method panics, and the formatted panic
error of the first panicking matching method otherwise. -/
def firstPanicError (typeName : String) (ctx : GoContext) :
    List MethodSpec → Option String
  | [] => none
  | (name, mt, behavior) :: rest =>
    if isValidDynamicMethod mt then
      match behavior ctx with
      | some recovered => some (panicMessage typeName name recovered)
      | none => firstPanicError typeName ctx rest
    else
      firstPanicError typeName ctx rest

/-- The instrumented controller built from a list of method descriptions. -/
def instrController (typeName : String) (ms : List MethodSpec) :
    DynController (List String) :=
  { typeName := typeName
    methods := ms.map fun x => instrMethod x.1 x.2.1 x.2.2 }

end adaptertemplate

/-- A concrete universal context used to instantiate theorems with
hypotheses at sample inputs. -/
def sampleCtx : interceptor.UniversalContext Unit :=
  interceptor.NewUniversalContext none "http" "GET" ()

namespace interceptor

variable {σ M R E N : Type}

theorem Chain_eq_foldr (handler : NextFunc σ M R E)
    (interceptors : List (Interceptor σ M R E)) :
    Chain handler interceptors = interceptors.foldr wrap handler := by
  cases interceptors <;> rfl

theorem Chain_cons (handler : NextFunc σ M R E) (i : Interceptor σ M R E)
    (rest : List (Interceptor σ M R E)) :
    Chain handler (i :: rest) = wrap i (Chain handler rest) := by
  rw [Chain_eq_foldr, Chain_eq_foldr]
  rfl

theorem chain_order_aux (l : List String) (p : R × Option E)
    (ctx : UniversalContext M) (s : List Event) :
    Chain (logHandler p) (l.map fun n => transformInterceptor n id) ctx s
      = (p, s ++ (l.map Event.enter ++ [Event.handlerRun] ++ (l.map Event.exit).reverse)) := by
  induction l generalizing s with
  | nil =>
      simp [Chain, logHandler]
  | cons a rest ih =>
      rw [List.map_cons, Chain_cons]
      simp only [wrap, transformInterceptor, ih, id]
      simp [List.append_assoc]

end interceptor


namespace interceptor

/-- C1: for every terminal handler and every non-empty interceptor
sequence in which each interceptor invokes its next-function exactly
once, one invocation of `Chain handler interceptors` records the
pre-next logic of the interceptors in declaration order, then the
handler's execution, then the post-next logic in reverse order — each
interceptor and the handler exactly once. -/
theorem chain_call_order {M R E : Type} (names : List String)
    (hne : names ≠ []) (p : R × Option E)
    (ctx : UniversalContext M) (s : List Event) :
    Chain (logHandler p) (names.map fun n => transformInterceptor n id) ctx s
      = (p, s ++ (names.map Event.enter ++ [Event.handlerRun]
           ++ (names.map Event.exit).reverse)) :=
  chain_order_aux names p ctx s

theorem chain_call_order_witness :
    (["I0", "I1", "I2"] : List String) ≠ [] ∧
    Chain (logHandler (((0 : Nat), (none : Option String))))
        ((["I0", "I1", "I2"] : List String).map fun n =>
          transformInterceptor (M := Unit) n id) sampleCtx []
      = (((0 : Nat), (none : Option String)),
         [Event.enter "I0", Event.enter "I1", Event.enter "I2",
          Event.handlerRun,
          Event.exit "I2", Event.exit "I1", Event.exit "I0"]) :=
  ⟨by decide, by
    simpa using chain_call_order (M := Unit) (R := Nat) (E := String)
      ["I0", "I1", "I2"] (by decide) (0, none) sampleCtx []⟩

/-- C2: if the interceptors at positions `0 .. k-1` each invoke next once
(recording entry/exit and applying a transformation on unwind) and the
interceptor at position `k` returns the pair `p` without invoking next,
then the pipeline's outcome is `p` transformed by positions `k-1 .. 0`
in unwind order, the trace holds their entries in order, the short
circuiter's entry, and their exits in reverse — and the right-hand side
mentions neither `rest` (the interceptors at positions `> k`) nor the
terminal handler `H`, so those never execute and leave no trace. -/
theorem chain_short_circuit {M R E : Type}
    (front : List (String × (R × Option E → R × Option E)))
    (name : String) (p : R × Option E)
    (rest : List (Interceptor (List Event) M R E))
    (H : NextFunc (List Event) M R E)
    (ctx : UniversalContext M) (s : List Event) :
    Chain H ((front.map fun nf => transformInterceptor nf.1 nf.2)
        ++ shortCircuitInterceptor name p :: rest) ctx s
      = (front.foldr (fun nf q => nf.2 q) p,
         s ++ ((front.map fun nf => Event.enter nf.1) ++ [Event.enter name]
           ++ (front.map fun nf => Event.exit nf.1).reverse)) := by
  induction front generalizing s with
  | nil =>
      rw [List.map_nil, List.nil_append, Chain_cons]
      simp [wrap, shortCircuitInterceptor]
  | cons a frontRest ih =>
      rw [List.map_cons, List.cons_append, Chain_cons]
      simp only [wrap, transformInterceptor, ih]
      simp [List.append_assoc]

/-- C3: with an empty interceptor sequence, `Chain` returns the terminal
handler itself — the identical function value — so on every context and
state the pipeline's outcome is the handler's outcome. -/
theorem chain_empty_is_handler {σ M R E : Type} (H : NextFunc σ M R E) :
    Chain H ([] : List (Interceptor σ M R E)) = H ∧
    ∀ (ctx : UniversalContext M) (s : σ), Chain H [] ctx s = H ctx s :=
  ⟨rfl, fun _ _ => rfl⟩

/-- C4: when the terminal handler returns the pair `(r, e)` (with an
arbitrary state effect `g`) and every interceptor passes the pair of its
next call through unchanged (with arbitrary pre/post state effects), the
pipeline returns exactly `(r, e)`: the builder modifies, wraps, and
swallows nothing. -/
theorem chain_transparent_propagation {σ M R E : Type}
    (l : List ((σ → σ) × (σ → σ))) (r : R) (e : Option E)
    (g : UniversalContext M → σ → σ) (ctx : UniversalContext M) (s : σ) :
    (Chain (fun c s0 => ((r, e), g c s0))
        (l.map fun pp => passThroughInterceptor pp.1 pp.2) ctx s).1 = (r, e) := by
  induction l generalizing s with
  | nil => rfl
  | cons a rest ih =>
      rw [List.map_cons, Chain_cons]
      simp only [wrap, passThroughInterceptor]
      exact ih (a.1 s)

/-- C5: with a terminal handler returning `(r, nil)` and two interceptors
applying `f0` (outer) and `f1` (inner) to the successful result, the
pipeline returns `(f0 (f1 r), nil)`: innermost transformation first,
outermost last, nothing else altered by the builder. -/
theorem chain_result_transform_order {σ M R E : Type}
    (f0 f1 : R → R) (r : R) (g : UniversalContext M → σ → σ)
    (ctx : UniversalContext M) (s : σ) :
    Chain (fun c s0 => (((r : R), (none : Option E)), g c s0))
        [resultMapInterceptor f0, resultMapInterceptor f1] ctx s
      = ((f0 (f1 r), none), g ctx s) := rfl

/-- C6: the builder `Chain` is a total pure function: for every handler
and every finite interceptor sequence it terminates and yields the fold
of closure construction `wrap` over the list — it invokes no interceptor
and never applies the handler at composition time (so even a nil handler
value, modelled as an arbitrary uninterpreted function value, is safe),
has no error channel, and performs no effects. -/
theorem chain_builder_total {σ M R E : Type} (handler : NextFunc σ M R E)
    (interceptors : List (Interceptor σ M R E)) :
    Chain handler interceptors = interceptors.foldr wrap handler := by
  cases interceptors <;> rfl

/-- C7: wrapping a non-nil error with `NewInterceptorError` yields a
non-nil error whose `Unwrap` is exactly the original cause. -/
theorem newInterceptorError_unwraps_to_cause (name : String)
    (err : GoError) (hname : name ≠ "") :
    NewInterceptorError name (some err) ≠ none ∧
    ∃ e', NewInterceptorError name (some err) = some e' ∧
      e'.Unwrap = some err :=
  ⟨by simp [NewInterceptorError], GoError.interceptorError name err, rfl, rfl⟩

theorem newInterceptorError_unwraps_to_cause_witness :
    ("auth" : String) ≠ "" ∧
    (NewInterceptorError "auth" (some (GoError.base "boom")) ≠ none ∧
     ∃ e', NewInterceptorError "auth" (some (GoError.base "boom")) = some e' ∧
       e'.Unwrap = some (GoError.base "boom")) :=
  ⟨by decide,
    newInterceptorError_unwraps_to_cause "auth" (GoError.base "boom") (by decide)⟩

end interceptor


namespace adaptertemplate

theorem instrMethod_mtype (name : String) (mt : MethodType)
    (behavior : GoContext → Option String) :
    (instrMethod name mt behavior).mtype = mt := rfl

theorem instrMethod_name_eq (name : String) (mt : MethodType)
    (behavior : GoContext → Option String) :
    (instrMethod name mt behavior).name = name := rfl

theorem instrMethod_run (name : String) (mt : MethodType)
    (behavior : GoContext → Option String) (ctx : GoContext)
    (s : List String) :
    (instrMethod name mt behavior).run ctx s = (behavior ctx, s ++ [name]) := rfl

theorem registerLoop_instr (typeName : String) (ctx : GoContext)
    (ms : List MethodSpec) (s : List String) :
    registerLoop typeName ctx
        (ms.map fun x => instrMethod x.1 x.2.1 x.2.2) s
      = (firstPanicError typeName ctx ms, s ++ invokedMethods ctx ms) := by
  induction ms generalizing s with
  | nil => simp [registerLoop, firstPanicError, invokedMethods]
  | cons a rest ih =>
      obtain ⟨name, mt, behavior⟩ := a
      rw [List.map_cons]
      by_cases hv : isValidDynamicMethod mt = true
      · cases hb : behavior ctx with
        | none =>
            rw [registerLoop, instrMethod_mtype, instrMethod_run]
            simp only [hv, if_true, hb, ih]
            simp [firstPanicError, invokedMethods, hv, hb]
        | some recovered =>
            rw [registerLoop, instrMethod_mtype, instrMethod_run]
            simp only [hv, if_true, hb]
            simp [firstPanicError, invokedMethods, hv, hb, instrMethod_name_eq]
      · rw [registerLoop, instrMethod_mtype]
        simp only [hv, if_false, ih]
        simp [firstPanicError, invokedMethods, hv]

theorem firstPanicError_eq_none_iff (typeName : String) (ctx : GoContext)
    (ms : List MethodSpec) :
    firstPanicError typeName ctx ms = none ↔
      ∀ m ∈ ms, isValidDynamicMethod m.2.1 = true → m.2.2 ctx = none := by
  induction ms with
  | nil => simp [firstPanicError]
  | cons a rest ih =>
      obtain ⟨name, mt, behavior⟩ := a
      by_cases hv : isValidDynamicMethod mt = true
      · cases hb : behavior ctx with
        | none => simp [firstPanicError, hv, hb, ih]
        | some recovered => simp [firstPanicError, hv, hb]
      · simp [firstPanicError, hv, ih]

/-- C8: for a non-nil controller whose methods record their invocation,
`RegisterRouter` invokes exactly the methods whose reflected signature is
`func(context.Context)` — in order, skipping all others, stopping at the
first one that panics so that later matching methods are never invoked —
and it returns a non-nil error if and only if some invoked matching
method panics (the formatted panic error of the first one). -/
theorem registerRouter_invokes_exactly_valid_failfast
    (typeName : String) (ctx : GoContext) (ms : List MethodSpec)
    (s : List String) :
    RegisterRouter (some (instrController typeName ms)) (some ctx) s
      = (firstPanicError typeName ctx ms, s ++ invokedMethods ctx ms) ∧
    (firstPanicError typeName ctx ms = none ↔
      ∀ m ∈ ms, isValidDynamicMethod m.2.1 = true → m.2.2 ctx = none) :=
  ⟨registerLoop_instr typeName ctx ms s,
   firstPanicError_eq_none_iff typeName ctx ms⟩

end adaptertemplate

namespace interceptor

/-- C9: `ExecutePipeline` returns the composed pipeline's (result, error)
pair unchanged, and fires exactly one bridge hook per call: `OnError`
with the error when the pipeline's error is non-nil, `OnSuccess` with
the result otherwise — observed here through a bridge whose hooks append
exactly one event to the state. -/
theorem executePipeline_single_hook_passthrough {M R E N : Type}
    (extract : N → M) (create : N → UniversalContext M)
    (resolver : InterceptorResolver (List (HookEvent R E)) M R E)
    (nativeCtx : N) (handlerKey : String)
    (businessHandler : NextFunc (List (HookEvent R E)) M R E)
    (s : List (HookEvent R E)) :
    ExecutePipeline (logBridge extract create) resolver nativeCtx
        handlerKey businessHandler s
      = ((Chain businessHandler (resolver (create nativeCtx) handlerKey)
            (create nativeCtx) s).1,
         (Chain businessHandler (resolver (create nativeCtx) handlerKey)
            (create nativeCtx) s).2
           ++ [match (Chain businessHandler (resolver (create nativeCtx) handlerKey)
                  (create nativeCtx) s).1.2 with
               | some e => HookEvent.failure e
               | none => HookEvent.success
                   (Chain businessHandler (resolver (create nativeCtx) handlerKey)
                     (create nativeCtx) s).1.1]) := by
  unfold ExecutePipeline logBridge
  cases h : (Chain businessHandler (resolver (create nativeCtx) handlerKey)
      (create nativeCtx) s).1.2 <;> simp [h]

/-- C10: `NewUniversalContext` stores the protocol, method and metadata
arguments unchanged, and its embedded execution context (a non-nilable
field of the model) is `context.Background()` when the context argument
is nil and the given context otherwise. -/
theorem newUniversalContext_fields {M : Type} (ctx : Option GoContext)
    (protocol method : String) (meta : M) :
    (NewUniversalContext ctx protocol method meta).Protocol = protocol ∧
    (NewUniversalContext ctx protocol method meta).Method = method ∧
    (NewUniversalContext ctx protocol method meta).Meta = meta ∧
    (NewUniversalContext ctx protocol method meta).Context
      = (match ctx with
         | none => GoContext.background
         | some c => c) := by
  cases ctx <;> exact ⟨rfl, rfl, rfl, rfl⟩

end interceptor

